import Mathlib

/-!
Verification of the jsxapi request/response core.

The development embeds the class XAPI from src/xapi/index.ts: the private
request-id counter, the pending request table, XAPI.execute, XAPI.command,
XAPI.handleResponse and XAPI.nextRequestId, together with the parts of the
Backend boundary that the specification describes (the Backend implementation
itself is not part of the sources, only its tests are; those parts are
modelled from the spec and marked as such).

The pending request table maps each request id to the pair of promise
continuations registered by execute. Each id is registered at most once over
the life of an instance, so an entry's continuation pair is identified by its
key; the table is therefore represented by its ordered list of keys, and the
act of invoking a continuation is recorded as an explicit effect value naming
that key.
-/

namespace Jsxapi

/-- JSON-ish runtime values carried in params and result fields of messages. -/
inductive Value where
  | undef
  | null
  | num (n : Int)
  | str (s : String)
  | obj (fields : List (String × Value))

/-- Shape of XapiError (spec section 3, Response): code, message, optional data.
The type declaration lives in src/xapi/types.ts, which is not under the
sources; the shape is taken from the spec. -/
structure XapiError where
  code : Int
  message : String
  data : Option Value := none

/-- Shape of an inbound message as consumed by XAPI.handleResponse
(index.ts 260-277): the handler reads the fields id, method, result, error and
params. A field is `none` when the corresponding key is absent; a key that is
present but holds the JavaScript value undefined is `some Value.undef`. -/
structure XapiResponse where
  id : String := ""
  method : Option String := none
  result : Option Value := none
  error : Option XapiError := none
  params : Option Value := none

/-- Outgoing JSON-RPC request envelope: jsonrpc, id, method, params
(spec section 6, wire format). -/
structure Request where
  jsonrpc : String
  id : String
  method : String
  params : Option Value

/-- Modelled from the spec: rpc.createRequest (src/xapi/rpc.ts is not under the
sources). Spec section 4.2: a canonical Request object with a fixed protocol
version tag; the tag is "2.0" per the wire format of section 6 and the Backend
tests. -/
def createRequest (id method : String) (params : Option Value) : Request :=
  { jsonrpc := "2.0", id := id, method := method, params := params }

/-- Decimal digits, rendered with fuel so that the definition is structural:
`natToDecAux fuel n` is the list of decimal digit characters of n provided
n < fuel. -/
def natToDecAux : Nat → Nat → List Char
  | 0, _ => []
  | fuel + 1, n =>
    if n < 10 then [Nat.digitChar n]
    else natToDecAux fuel (n / 10) ++ [Nat.digitChar (n % 10)]

/-- Decimal rendering of a natural number: the embedding of the JavaScript
expression `requestId.toString()` in XAPI.nextRequestId (index.ts 283), whose
argument is always a nonnegative integer. -/
def natToDec (n : Nat) : String :=
  String.mk (natToDecAux (n + 1) n)

/-- Numeric value of a decimal digit character. -/
def decDigitVal (c : Char) : Nat := c.toNat - 48

/-- Reads a digit-character list back as a number; inverse of `natToDecAux`
on well-formed output, used to prove injectivity of the rendering. -/
def listToNat (l : List Char) : Nat :=
  l.foldl (fun a c => a * 10 + decDigitVal c) 0

/-- Mutable per-instance state of class XAPI (index.ts 98-99): the private
requestId counter and the pending request table, the latter represented by its
ordered list of keys. -/
structure XAPIState where
  requestId : Nat
  requests : List String
deriving DecidableEq, Repr

/-- State of a freshly constructed XAPI instance: requestId = 1, empty table. -/
def XAPIState.initial : XAPIState :=
  { requestId := 1, requests := [] }

/-- XAPI.nextRequestId (index.ts 280-284): returns the current counter rendered
as a string and increments the counter. -/
def nextRequestId (st : XAPIState) : String × XAPIState :=
  (natToDec st.requestId, { st with requestId := st.requestId + 1 })

/-- First half of XAPI.execute (index.ts 252-254): the id is assigned and the
request built; the returned state is the instance state at the moment
backend.execute(request) is invoked, before the continuations are stored. -/
def executeMid (st : XAPIState) (method : String) (params : Option Value) :
    Request × XAPIState :=
  let p := nextRequestId st
  (createRequest p.1 method params, p.2)

/-- XAPI.execute (index.ts 250-257): assign the id, build the request, hand it
to the backend, then store the continuation pair in the table under the id. -/
def execute (st : XAPIState) (method : String) (params : Option Value) :
    Request × XAPIState :=
  let q := executeMid st method params
  (q.1, { q.2 with requests := q.2.requests ++ [q.1.id] })

/-- Observable actions performed by the body of XAPI.execute, in program
order; `backendExecute` records the pending table as it stands when
backend.execute(request) is called. -/
inductive ExecAction where
  | backendExecute (req : Request) (tableAtCall : List String)
  | storeContinuation (id : String)

/-- Ordered action trace of one call to XAPI.execute (index.ts 252-255): the
backend call on line 254 precedes the table store on line 255. -/
def executeActions (st : XAPIState) (method : String) (params : Option Value) :
    List ExecAction :=
  let q := executeMid st method params
  [ExecAction.backendExecute q.1 q.2.requests, ExecAction.storeContinuation q.1.id]

/-- Effect produced by one run of XAPI.handleResponse: a feedback dispatch, the
invocation of the resolve or reject continuation stored under an id, or a
thrown TypeError. -/
inductive HandleEffect where
  | dispatched (params : Option Value)
  | resolved (id : String) (result : Value)
  | rejected (id : String) (error : Option XapiError)
  | threw

/-- XAPI.handleResponse (index.ts 260-277). Messages whose method is
xFeedback/Event are forwarded to feedback.dispatch with the message params.
Otherwise the branch is chosen by presence of the result key: the pending
entry for response.id is looked up and its resolve or reject continuation
invoked — in the source the lookup destructures this.requests[id], which
throws a TypeError when no entry exists (modelled by `HandleEffect.threw`,
leaving the state unchanged because the subsequent delete is not reached);
when the entry exists the continuation is invoked and the entry deleted. -/
def handleResponse (st : XAPIState) (r : XapiResponse) :
    XAPIState × HandleEffect :=
  if r.method = some "xFeedback/Event" then
    (st, HandleEffect.dispatched r.params)
  else
    match r.result with
    | some v =>
      if r.id ∈ st.requests then
        ({ st with requests := st.requests.erase r.id }, HandleEffect.resolved r.id v)
      else
        (st, HandleEffect.threw)
    | none =>
      if r.id ∈ st.requests then
        ({ st with requests := st.requests.erase r.id }, HandleEffect.rejected r.id r.error)
      else
        (st, HandleEffect.threw)

/-- Invariant of an XAPI instance: the counter started at 1 and only ever
grew, every table key is the rendering of a counter value already consumed,
and keys are pairwise distinct. -/
def Inv (st : XAPIState) : Prop :=
  1 ≤ st.requestId ∧ st.requests.Nodup ∧
    ∀ s ∈ st.requests, ∃ k, 1 ≤ k ∧ k < st.requestId ∧ s = natToDec k

/-! Properties of the decimal rendering. -/

theorem decDigitVal_digitChar : ∀ d, d < 10 → decDigitVal (Nat.digitChar d) = d := by
  decide

theorem listToNat_append_digit (l : List Char) (c : Char) :
    listToNat (l ++ [c]) = listToNat l * 10 + decDigitVal c := by
  simp [listToNat, List.foldl_append]

theorem listToNat_natToDecAux :
    ∀ (fuel n : Nat), n < fuel → listToNat (natToDecAux fuel n) = n := by
  intro fuel
  induction fuel with
  | zero => intro n hn; omega
  | succ f ih =>
    intro n hn
    by_cases h : n < 10
    · simp [natToDecAux, h, listToNat, decDigitVal_digitChar n h]
    · have hd : n / 10 < f := by omega
      have hrec := ih (n / 10) hd
      simp only [natToDecAux, if_neg h, listToNat_append_digit, hrec,
        decDigitVal_digitChar (n % 10) (by omega)]
      omega

theorem listToNat_natToDec (n : Nat) : listToNat (natToDec n).data = n :=
  listToNat_natToDecAux (n + 1) n (by omega)

theorem natToDec_injective : Function.Injective natToDec := by
  intro m n h
  have hm := listToNat_natToDec m
  have hn := listToNat_natToDec n
  rw [h, hn] at hm
  exact hm.symm

theorem natToDec_one : natToDec 1 = "1" := by decide

/-! Preservation of the instance invariant. -/

theorem Inv_initial : Inv XAPIState.initial := by
  refine ⟨le_refl 1, List.nodup_nil, ?_⟩
  intro s hs
  simp [XAPIState.initial] at hs

theorem execute_requests (st : XAPIState) (m : String) (p : Option Value) :
    (execute st m p).2.requests = st.requests ++ [natToDec st.requestId] := rfl

theorem execute_requestId (st : XAPIState) (m : String) (p : Option Value) :
    (execute st m p).2.requestId = st.requestId + 1 := rfl

theorem execute_id (st : XAPIState) (m : String) (p : Option Value) :
    (execute st m p).1.id = natToDec st.requestId := rfl

theorem Inv_fresh_id (st : XAPIState) (h : Inv st) :
    natToDec st.requestId ∉ st.requests := by
  intro hmem
  obtain ⟨k, _, hk2, hk3⟩ := h.2.2 _ hmem
  exact absurd (natToDec_injective hk3.symm) (by omega)

theorem Inv_execute (st : XAPIState) (m : String) (p : Option Value)
    (h : Inv st) : Inv (execute st m p).2 := by
  refine ⟨?_, ?_, ?_⟩
  · rw [execute_requestId]; omega
  · rw [execute_requests]
    simp only [List.nodup_append, List.nodup_singleton, true_and]
    exact ⟨h.2.1, by simpa [List.disjoint_singleton] using Inv_fresh_id st h⟩
  · rw [execute_requests, execute_requestId]
    intro s hs
    rcases List.mem_append.mp hs with hs | hs
    · obtain ⟨k, hk1, hk2, hk3⟩ := h.2.2 _ hs
      exact ⟨k, hk1, by omega, hk3⟩
    · exact ⟨st.requestId, h.1, by omega, by simpa using hs⟩

theorem handleResponse_requestId (st : XAPIState) (r : XapiResponse) :
    (handleResponse st r).1.requestId = st.requestId := by
  unfold handleResponse
  split
  · rfl
  · match hr : r.result with
    | some v => dsimp only; split <;> rfl
    | none => dsimp only; split <;> rfl

theorem handleResponse_requests (st : XAPIState) (r : XapiResponse) :
    (handleResponse st r).1.requests =
      if r.method = some "xFeedback/Event" then st.requests
      else st.requests.erase r.id := by
  unfold handleResponse
  split
  · simp_all
  · match hr : r.result with
    | some v =>
      dsimp only
      split
      · rfl
      · rename_i hmem
        exact (List.erase_of_not_mem hmem).symm
    | none =>
      dsimp only
      split
      · rfl
      · rename_i hmem
        exact (List.erase_of_not_mem hmem).symm

theorem Inv_handleResponse (st : XAPIState) (r : XapiResponse)
    (h : Inv st) : Inv (handleResponse st r).1 := by
  refine ⟨by rw [handleResponse_requestId]; exact h.1, ?_, ?_⟩
  · rw [handleResponse_requests]
    split
    · exact h.2.1
    · exact h.2.1.erase r.id
  · rw [handleResponse_requests, handleResponse_requestId]
    split
    · exact h.2.2
    · intro s hs
      exact h.2.2 s (List.mem_of_mem_erase hs)

/-- State of an instance that has sent one request (id "1") still pending. -/
theorem Inv_state_one : Inv ⟨2, ["1"]⟩ := by
  refine ⟨by decide, by simp, ?_⟩
  intro s hs
  simp only [List.mem_singleton] at hs
  exact ⟨1, le_refl 1, by decide, by rw [hs, natToDec_one]⟩

/-- C1: for a request whose id has an entry in the pending request table, an
inbound non-feedback message with that id carrying a result invokes the
resolve continuation registered for that id with the message's result, one
carrying an error instead invokes the reject continuation with that error,
and in both cases the table no longer contains the id afterward. -/
theorem handleResponse_pending_resolution (st : XAPIState) (r : XapiResponse)
    (hInv : Inv st) (hm : r.method ≠ some "xFeedback/Event")
    (hid : r.id ∈ st.requests) :
    (∀ v, r.result = some v →
       (handleResponse st r).2 = HandleEffect.resolved r.id v) ∧
    (∀ e, r.result = none → r.error = some e →
       (handleResponse st r).2 = HandleEffect.rejected r.id (some e)) ∧
    r.id ∉ (handleResponse st r).1.requests := by
  refine ⟨?_, ?_, ?_⟩
  · intro v hv
    simp [handleResponse, hm, hv, hid]
  · intro e hv he
    simp [handleResponse, hm, hv, he, hid]
  · rw [handleResponse_requests, if_neg hm]
    exact hInv.2.1.not_mem_erase

/-- Witness for C1: on an instance with id "1" pending, a result message with
id "1" resolves that continuation and empties the table. -/
theorem handleResponse_pending_resolution_witness :
    (handleResponse ⟨2, ["1"]⟩
        { id := "1", method := some "xCommand/Dial", result := some (Value.num 42) }).2
      = HandleEffect.resolved "1" (Value.num 42) ∧
    "1" ∉ (handleResponse ⟨2, ["1"]⟩
        { id := "1", method := some "xCommand/Dial", result := some (Value.num 42) }).1.requests := by
  have h := handleResponse_pending_resolution ⟨2, ["1"]⟩
      { id := "1", method := some "xCommand/Dial", result := some (Value.num 42) }
      Inv_state_one (by decide) (by decide)
  exact ⟨h.1 _ rfl, h.2.2⟩

/-- C2 counterexample: with id "1" pending and requestId 3, a result message
with the unknown id "2" makes handleResponse throw (the destructuring of the
missing table entry fails), refuting the claim's "without raising an
exception"; the table is indeed left unchanged. -/
theorem handleResponse_unknownId_cex :
    (handleResponse ⟨3, ["1"]⟩
        { id := "2", method := some "xCommand/Dial", result := some (Value.num 7) }).2
      = HandleEffect.threw ∧
    (handleResponse ⟨3, ["1"]⟩
        { id := "2", method := some "xCommand/Dial", result := some (Value.num 7) }).1
      = ⟨3, ["1"]⟩ :=
  ⟨rfl, rfl⟩

/-- C2 amended: a non-feedback message whose id matches no pending entry
resolves no continuation and leaves the table unchanged, but handleResponse
raises a TypeError (the lookup of the missing entry is destructured) rather
than silently dropping the message. -/
theorem handleResponse_unknownId (st : XAPIState) (r : XapiResponse)
    (hm : r.method ≠ some "xFeedback/Event") (hid : r.id ∉ st.requests) :
    (handleResponse st r).1 = st ∧ (handleResponse st r).2 = HandleEffect.threw := by
  cases hr : r.result <;> simp [handleResponse, hm, hid, hr]

/-- Witness for the amended C2: a fresh instance handling a result message
with id "1" throws and keeps its empty table. -/
theorem handleResponse_unknownId_witness :
    (handleResponse XAPIState.initial
        { id := "1", method := some "xCommand/Dial", result := some (Value.num 7) }).1
      = XAPIState.initial ∧
    (handleResponse XAPIState.initial
        { id := "1", method := some "xCommand/Dial", result := some (Value.num 7) }).2
      = HandleEffect.threw :=
  handleResponse_unknownId XAPIState.initial
    { id := "1", method := some "xCommand/Dial", result := some (Value.num 7) }
    (by decide) (by decide)

/-- C3 counterexample: with id "1" pending, a non-feedback message with id "1"
carrying neither result nor error key rejects the pending request (with the
absent error value) and removes its entry, refuting the claim that a malformed
payload never rejects any pending request and leaves the table unchanged. -/
theorem handleResponse_malformed_cex :
    (handleResponse ⟨2, ["1"]⟩
        { id := "1", method := some "xCommand/Dial" }).2
      = HandleEffect.rejected "1" none ∧
    (handleResponse ⟨2, ["1"]⟩
        { id := "1", method := some "xCommand/Dial" }).1.requests = [] :=
  ⟨rfl, rfl⟩

/-- C3 amended: a non-feedback message lacking the result key is treated as an
error response, whether or not an error key is present: if its id is pending,
the pending request is rejected with the absent error value and the entry
removed; if its id is not pending, a TypeError is raised and the state is
unchanged; in neither case is any feedback listener invoked. -/
theorem handleResponse_malformed (st : XAPIState) (r : XapiResponse)
    (hInv : Inv st) (hm : r.method ≠ some "xFeedback/Event")
    (hres : r.result = none) (herr : r.error = none) :
    (r.id ∈ st.requests →
       (handleResponse st r).2 = HandleEffect.rejected r.id none ∧
       r.id ∉ (handleResponse st r).1.requests) ∧
    (r.id ∉ st.requests →
       (handleResponse st r).2 = HandleEffect.threw ∧
       (handleResponse st r).1 = st) ∧
    (∀ p, (handleResponse st r).2 ≠ HandleEffect.dispatched p) := by
  refine ⟨?_, ?_, ?_⟩
  · intro hid
    constructor
    · simp [handleResponse, hm, hres, herr, hid]
    · rw [handleResponse_requests, if_neg hm]
      exact hInv.2.1.not_mem_erase
  · intro hid
    simp [handleResponse, hm, hres, hid]
  · intro p
    by_cases hid : r.id ∈ st.requests <;>
      simp [handleResponse, hm, hres, hid]

/-- Witness for the amended C3: with id "1" pending, the result-and-error-free
message with id "1" is rejected with the absent error value and removed. -/
theorem handleResponse_malformed_witness :
    (handleResponse ⟨2, ["1"]⟩
        { id := "1", method := some "xCommand/Dial" }).2
      = HandleEffect.rejected "1" none ∧
    "1" ∉ (handleResponse ⟨2, ["1"]⟩
        { id := "1", method := some "xCommand/Dial" }).1.requests := by
  have h := handleResponse_malformed ⟨2, ["1"]⟩
      { id := "1", method := some "xCommand/Dial" }
      Inv_state_one (by decide) rfl rfl
  exact h.1 (by decide)

/-- C9: a message whose method is xFeedback/Event is forwarded to
feedback.dispatch with the message's params and leaves the pending request
table completely unchanged; a message whose method is anything else never
reaches feedback.dispatch. -/
theorem handleResponse_feedback_routing (st : XAPIState) (r : XapiResponse) :
    (r.method = some "xFeedback/Event" →
       (handleResponse st r).2 = HandleEffect.dispatched r.params ∧
       (handleResponse st r).1 = st) ∧
    (r.method ≠ some "xFeedback/Event" →
       ∀ p, (handleResponse st r).2 ≠ HandleEffect.dispatched p) := by
  constructor
  · intro hm
    simp [handleResponse, hm]
  · intro hm p
    cases hr : r.result <;> by_cases hid : r.id ∈ st.requests <;>
      simp [handleResponse, hm, hr, hid]

/-- Witness for C9: a feedback event on an instance with id "1" pending is
dispatched and the table keeps its entry. -/
theorem handleResponse_feedback_routing_witness :
    (handleResponse ⟨2, ["1"]⟩
        { method := some "xFeedback/Event", params := some (Value.str "evt") }).2
      = HandleEffect.dispatched (some (Value.str "evt")) ∧
    (handleResponse ⟨2, ["1"]⟩
        { method := some "xFeedback/Event", params := some (Value.str "evt") }).1
      = ⟨2, ["1"]⟩ :=
  (handleResponse_feedback_routing ⟨2, ["1"]⟩
    { method := some "xFeedback/Event", params := some (Value.str "evt") }).1 rfl

/-- C10: within execute, the backend receives the request while the pending
request table still lacks the new id (index.ts 254 precedes 255): the action
trace lists the backend call first, the table passed to the backend call is
the unchanged table of the caller, the new id is absent from it, and only the
final state gains the entry. -/
theorem execute_backend_before_store (st : XAPIState) (m : String)
    (p : Option Value) (hInv : Inv st) :
    executeActions st m p =
      [ExecAction.backendExecute (executeMid st m p).1 st.requests,
       ExecAction.storeContinuation (executeMid st m p).1.id] ∧
    (executeMid st m p).2.requests = st.requests ∧
    (executeMid st m p).1.id ∉ (executeMid st m p).2.requests ∧
    (execute st m p).2.requests = st.requests ++ [(executeMid st m p).1.id] := by
  refine ⟨rfl, rfl, ?_, rfl⟩
  show natToDec st.requestId ∉ st.requests
  exact Inv_fresh_id st hInv

/-- Witness for C10: on a fresh instance the backend call sees the empty
table and the id "1" assigned to the request is not yet stored. -/
theorem execute_backend_before_store_witness :
    executeActions XAPIState.initial "xCommand/Dial" none =
      [ExecAction.backendExecute
         (executeMid XAPIState.initial "xCommand/Dial" none).1 [],
       ExecAction.storeContinuation
         (executeMid XAPIState.initial "xCommand/Dial" none).1.id] ∧
    (executeMid XAPIState.initial "xCommand/Dial" none).1.id ∉
      (executeMid XAPIState.initial "xCommand/Dial" none).2.requests := by
  have h := execute_backend_before_store XAPIState.initial "xCommand/Dial" none Inv_initial
  exact ⟨h.1, h.2.2.1⟩

/-! Operation sequences: many executes and inbound messages interleaved. -/

/-- One externally triggered operation on an XAPI instance: a call to execute
or the arrival of one inbound message. -/
inductive Op where
  | exec (method : String) (params : Option Value)
  | handle (r : XapiResponse)

/-- Effect of one operation on the instance state, with the continuation
invocations it performs. -/
def stepOp (st : XAPIState) : Op → XAPIState × List HandleEffect
  | Op.exec m p => ((execute st m p).2, [])
  | Op.handle r => ((handleResponse st r).1, [(handleResponse st r).2])

/-- Runs a sequence of operations, accumulating the effect trace. -/
def run (st : XAPIState) : List Op → XAPIState × List HandleEffect
  | [] => (st, [])
  | op :: ops =>
    ((run (stepOp st op).1 ops).1, (stepOp st op).2 ++ (run (stepOp st op).1 ops).2)

/-- Request ids assigned by the execute calls of an operation sequence, in
call order. -/
def execIds (st : XAPIState) : List Op → List String
  | [] => []
  | Op.exec m p :: ops => (execute st m p).1.id :: execIds (execute st m p).2 ops
  | Op.handle r :: ops => execIds (handleResponse st r).1 ops

theorem execIds_ge :
    ∀ (ops : List Op) (st : XAPIState) (s : String), s ∈ execIds st ops →
      ∃ k, st.requestId ≤ k ∧ s = natToDec k := by
  intro ops
  induction ops with
  | nil => intro st s hs; simp [execIds] at hs
  | cons op ops ih =>
    intro st s hs
    cases op with
    | exec m p =>
      rcases List.mem_cons.mp hs with hs | hs
      · exact ⟨st.requestId, le_refl _, hs⟩
      · obtain ⟨k, hk1, hk2⟩ := ih (execute st m p).2 s hs
        rw [execute_requestId] at hk1
        exact ⟨k, by omega, hk2⟩
    | handle r =>
      obtain ⟨k, hk1, hk2⟩ := ih (handleResponse st r).1 s hs
      rw [handleResponse_requestId] at hk1
      exact ⟨k, hk1, hk2⟩

theorem execIds_nodup : ∀ (ops : List Op) (st : XAPIState), (execIds st ops).Nodup := by
  intro ops
  induction ops with
  | nil => intro st; simp [execIds]
  | cons op ops ih =>
    intro st
    cases op with
    | exec m p =>
      refine List.nodup_cons.mpr ⟨?_, ih (execute st m p).2⟩
      intro hmem
      obtain ⟨k, hk1, hk2⟩ := execIds_ge ops (execute st m p).2 _ hmem
      rw [execute_requestId] at hk1
      have : st.requestId = k := natToDec_injective (execute_id st m p ▸ hk2)
      omega
    | handle r => exact ih (handleResponse st r).1

/-- C5: request ids are a monotonically increasing counter rendered as a
string: the first execute on a fresh instance uses "1", consecutive executes
use consecutive counter values, the rendering reads back as the numeric
counter value, and across any operation sequence distinct execute calls are
assigned pairwise distinct ids. -/
theorem request_ids_monotone (ops : List Op) :
    (∀ m p, (execute XAPIState.initial m p).1.id = "1") ∧
    (∀ st m p m2 p2,
       (execute st m p).1.id = natToDec st.requestId ∧
       (execute (execute st m p).2 m2 p2).1.id = natToDec (st.requestId + 1)) ∧
    (∀ n, listToNat (natToDec n).data = n) ∧
    (execIds XAPIState.initial ops).Nodup := by
  refine ⟨?_, ?_, listToNat_natToDec, execIds_nodup ops XAPIState.initial⟩
  · intro m p
    rw [execute_id]
    exact natToDec_one
  · intro st m p m2 p2
    exact ⟨rfl, rfl⟩

/-- Tests whether an effect invokes the continuation pair stored under the
given id (a resolve or a reject of that id). -/
def touches (id : String) : HandleEffect → Bool
  | HandleEffect.resolved i _ => i = id
  | HandleEffect.rejected i _ => i = id
  | _ => false

/-- Number of continuation invocations for the given id in an effect trace. -/
def touchCount (tr : List HandleEffect) (id : String) : Nat :=
  (tr.filter (touches id)).length

theorem touchCount_append (tr tr2 : List HandleEffect) (id : String) :
    touchCount (tr ++ tr2) id = touchCount tr id + touchCount tr2 id := by
  simp [touchCount, List.filter_append]

/-- Induction invariant tying an instance state to the effect trace produced
so far: the state invariant holds, no id has been resolved or rejected more
than once, and an id already resolved or rejected is a consumed counter value
that is no longer in the table. -/
def TraceInv (st : XAPIState) (tr : List HandleEffect) : Prop :=
  Inv st ∧ (∀ id, touchCount tr id ≤ 1) ∧
    ∀ id, 0 < touchCount tr id →
      (∃ k, 1 ≤ k ∧ k < st.requestId ∧ id = natToDec k) ∧ id ∉ st.requests

theorem handleResponse_touch (st : XAPIState) (r : XapiResponse) (id : String)
    (h : touches id (handleResponse st r).2 = true) :
    id = r.id ∧ r.id ∈ st.requests ∧ r.method ≠ some "xFeedback/Event" := by
  by_cases hm : r.method = some "xFeedback/Event"
  · simp [handleResponse, hm, touches] at h
  · cases hr : r.result <;> by_cases hid : r.id ∈ st.requests <;>
      simp only [handleResponse, hm, if_neg hm, hr, hid, if_pos, if_neg,
        not_false_iff, touches, decide_eq_true_eq] at h <;>
      first
        | exact ⟨h.symm, hid, hm⟩
        | simp_all [touches]

theorem TraceInv_step (st : XAPIState) (tr : List HandleEffect) (op : Op)
    (h : TraceInv st tr) :
    TraceInv (stepOp st op).1 (tr ++ (stepOp st op).2) := by
  obtain ⟨hInv, hle, hclosed⟩ := h
  cases op with
  | exec m p =>
    refine ⟨Inv_execute st m p hInv, ?_, ?_⟩
    · intro id
      simpa [stepOp, touchCount] using hle id
    · intro id hpos
      rw [stepOp] at hpos ⊢
      simp only [List.append_nil] at hpos
      obtain ⟨⟨k, hk1, hk2, hk3⟩, hnot⟩ := hclosed id hpos
      refine ⟨⟨k, hk1, by rw [execute_requestId]; omega, hk3⟩, ?_⟩
      rw [execute_requests]
      intro hmem
      rcases List.mem_append.mp hmem with hmem | hmem
      · exact hnot hmem
      · rw [List.mem_singleton] at hmem
        have : k = st.requestId := natToDec_injective (hk3 ▸ hmem)
        omega
  | handle r =>
    refine ⟨Inv_handleResponse st r hInv, ?_, ?_⟩
    · intro id
      dsimp only [stepOp]
      rw [touchCount_append]
      by_cases ht : touches id (handleResponse st r).2 = true
      · obtain ⟨hid, hmem, _⟩ := handleResponse_touch st r id ht
        have h0 : touchCount tr id = 0 := by
          by_contra hne
          exact (hclosed id (by omega)).2 (hid ▸ hmem)
        have h1 : touchCount [(handleResponse st r).2] id = 1 := by
          simp [touchCount, List.filter_cons, ht]
        omega
      · simp only [Bool.not_eq_true] at ht
        have : touchCount [(handleResponse st r).2] id = 0 := by
          simp [touchCount, ht]
        rw [this]
        simpa using hle id
    · intro id hpos
      dsimp only [stepOp] at hpos ⊢
      rw [touchCount_append] at hpos
      rw [handleResponse_requestId]
      by_cases hold : 0 < touchCount tr id
      · obtain ⟨hex, hnot⟩ := hclosed id hold
        refine ⟨hex, ?_⟩
        rw [handleResponse_requests]
        split
        · exact hnot
        · intro hmem
          exact hnot (List.mem_of_mem_erase hmem)
      · have ht : touches id (handleResponse st r).2 = true := by
          by_contra hne
          simp only [Bool.not_eq_true] at hne
          simp [touchCount, hne] at hpos
          simp only [touchCount] at hold
          omega
        obtain ⟨hid, hmem, hm⟩ := handleResponse_touch st r id ht
        obtain ⟨k, hk1, hk2, hk3⟩ := hInv.2.2 r.id hmem
        refine ⟨⟨k, hk1, hk2, hid ▸ hk3⟩, ?_⟩
        rw [handleResponse_requests, if_neg hm, hid]
        exact hInv.2.1.not_mem_erase

theorem TraceInv_run :
    ∀ (ops : List Op) (st : XAPIState) (tr : List HandleEffect),
      TraceInv st tr → TraceInv (run st ops).1 (tr ++ (run st ops).2) := by
  intro ops
  induction ops with
  | nil =>
    intro st tr h
    simpa [run] using h
  | cons op ops ih =>
    intro st tr h
    have h2 := ih (stepOp st op).1 (tr ++ (stepOp st op).2) (TraceInv_step st tr op h)
    simpa [run, List.append_assoc] using h2

/-- C4: across any sequence of execute calls and inbound messages starting
from a fresh instance, the pending request table always has pairwise distinct
ids (at most one entry per id), an entry appears exactly when its request is
sent by execute, disappears exactly when a matching non-feedback response is
handled, and no id's continuations are ever invoked more than once in the
whole effect trace. -/
theorem pending_table_no_double_resolution (ops : List Op) :
    ((run XAPIState.initial ops).1.requests.Nodup) ∧
    (∀ id, touchCount (run XAPIState.initial ops).2 id ≤ 1) ∧
    (∀ st m p, (execute st m p).2.requests = st.requests ++ [(execute st m p).1.id]) ∧
    (∀ st r, (handleResponse st r).1.requests =
       if r.method = some "xFeedback/Event" then st.requests
       else st.requests.erase r.id) := by
  have h0 : TraceInv XAPIState.initial [] := by
    refine ⟨Inv_initial, ?_, ?_⟩
    · intro id; simp [touchCount]
    · intro id hpos; simp [touchCount] at hpos
  have h := TraceInv_run ops XAPIState.initial [] h0
  rw [List.nil_append] at h
  exact ⟨h.1.2.1, h.2.1, fun st m p => rfl, handleResponse_requests⟩

/-! Path normalization and XAPI.command. -/

/-- Path argument of XAPI.command: either one delimited string or an explicit
ordered sequence of segments. -/
inductive Path where
  | str (s : String)
  | segs (segs : List String)

/-- Delimiter characters of path strings: space and slash (spec section 4.3). -/
def isDelim (c : Char) : Bool := c = ' ' || c = '/'

/-- Splits a character list at delimiter characters, accumulating the current
segment in reverse. -/
def splitSegsAux : List Char → List Char → List (List Char)
  | [], acc => [acc.reverse]
  | c :: cs, acc =>
    if isDelim c then acc.reverse :: splitSegsAux cs []
    else splitSegsAux cs (c :: acc)

/-- Modelled from the spec: normalizePath (src/xapi/normalizePath.ts is not
under the sources). Spec section 4.3: paths are accepted either as a single
space or slash delimited string or as an explicit ordered sequence of
segments; both forms normalize to the identical ordered sequence of segments
before use, and the case of segment text is preserved. Runs of delimiters
contribute no empty segments. -/
def normalizePath : Path → List String
  | Path.segs l => l
  | Path.str s =>
    ((splitSegsAux s.data []).filter (fun seg => seg ≠ [])).map
      (fun seg => String.mk seg)

/-- Own enumerable properties of a JavaScript value, as Object.assign
enumerates them: objects contribute their fields, strings contribute one
index-keyed single-character string per character, and null, undefined and
numbers contribute none. -/
def ownFields : Value → List (String × Value)
  | Value.obj fs => fs
  | Value.str s => s.data.enum.map (fun ic => (natToDec ic.1, Value.str (String.mk [ic.2])))
  | _ => []

/-- Writes one field into an object's field list: an existing key is
overwritten in place, a new key is appended, matching JavaScript property
assignment order. -/
def setField (fs : List (String × Value)) (k : String) (v : Value) :
    List (String × Value) :=
  if fs.any (fun kv => kv.1 = k) then
    fs.map (fun kv => if kv.1 = k then (k, v) else kv)
  else fs ++ [(k, v)]

/-- Copies source fields onto a target field list, in source order. -/
def assignFields (target : List (String × Value)) :
    List (String × Value) → List (String × Value)
  | [] => target
  | (k, v) :: rest => assignFields (setField target k v) rest

/-- Embeds the expression on index.ts 234: Object.assign applied to a fresh
object holding the single field body and to params. -/
def assignBody (body : String) (params : Option Value) : Value :=
  Value.obj (assignFields [("body", Value.str body)]
    (match params with
     | none => []
     | some v => ownFields v))

/-- XAPI.command (index.ts 230-236): join the normalized path with slashes,
prepend xCommand/, merge a multi-line body into the params when one is given,
and delegate to execute. -/
def command (st : XAPIState) (path : Path) (params : Option Value)
    (body : Option String) : Request × XAPIState :=
  let apiPath := String.intercalate "/" (normalizePath path)
  let method := "xCommand/" ++ apiPath
  let executeParams :=
    match body with
    | none => params
    | some b => some (assignBody b params)
  execute st method executeParams

/-- Joins character-list segments with a single delimiter character. -/
def joinChars (d : Char) : List (List Char) → List Char
  | [] => []
  | [s] => s
  | s :: s2 :: rest => s ++ d :: joinChars d (s2 :: rest)

/-- The d-delimited string form of a segment sequence. -/
def joinSegs (d : Char) (l : List String) : String :=
  String.mk (joinChars d (l.map String.data))

theorem splitSegsAux_no_delim :
    ∀ (cs acc : List Char), (∀ c ∈ cs, isDelim c = false) →
      splitSegsAux cs acc = [acc.reverse ++ cs] := by
  intro cs
  induction cs with
  | nil => intro acc h; simp [splitSegsAux]
  | cons c cs ih =>
    intro acc h
    have hc : isDelim c = false := h c (List.mem_cons_self c cs)
    have hrest : ∀ x ∈ cs, isDelim x = false := fun x hx => h x (List.mem_cons_of_mem c hx)
    simp only [splitSegsAux, hc, Bool.false_eq_true, if_false, ih (c :: acc) hrest,
      List.reverse_cons, List.append_assoc, List.singleton_append]

theorem splitSegsAux_seg_delim (d : Char) (hd : isDelim d = true) :
    ∀ (s rest acc : List Char), (∀ c ∈ s, isDelim c = false) →
      splitSegsAux (s ++ d :: rest) acc = (acc.reverse ++ s) :: splitSegsAux rest [] := by
  intro s
  induction s with
  | nil => intro rest acc h; simp [splitSegsAux, hd]
  | cons c s ih =>
    intro rest acc h
    have hc : isDelim c = false := h c (List.mem_cons_self c s)
    have hrest : ∀ x ∈ s, isDelim x = false := fun x hx => h x (List.mem_cons_of_mem c hx)
    show splitSegsAux (c :: (s ++ d :: rest)) acc = (acc.reverse ++ c :: s) :: splitSegsAux rest []
    rw [splitSegsAux]
    simp only [hc, Bool.false_eq_true, if_false]
    rw [ih rest (c :: acc) hrest]
    simp [List.reverse_cons, List.append_assoc]

theorem split_join (d : Char) (hd : isDelim d = true) :
    ∀ (L : List (List Char)),
      (∀ s ∈ L, s ≠ [] ∧ ∀ c ∈ s, isDelim c = false) →
      (splitSegsAux (joinChars d L) []).filter (fun seg => seg ≠ []) = L := by
  intro L
  induction L with
  | nil => intro _; simp [joinChars, splitSegsAux]
  | cons s L ih =>
    intro h
    have hs := h s (List.mem_cons_self s L)
    cases L with
    | nil =>
      rw [joinChars, splitSegsAux_no_delim s [] hs.2]
      simp [hs.1]
    | cons s2 L2 =>
      have hrest : ∀ x ∈ s2 :: L2, x ≠ [] ∧ ∀ c ∈ x, isDelim c = false :=
        fun x hx => h x (List.mem_cons_of_mem s hx)
      rw [joinChars, splitSegsAux_seg_delim d hd s _ [] hs.2]
      simp only [List.reverse_nil, List.nil_append]
      rw [List.filter_cons, ih hrest]
      simp [hs.1]

theorem mk_data (s : String) : String.mk s.data = s := rfl

theorem normalizePath_joinSegs (d : Char) (hd : isDelim d = true) (l : List String)
    (h : ∀ seg ∈ l, seg.data ≠ [] ∧ ∀ c ∈ seg.data, isDelim c = false) :
    normalizePath (Path.str (joinSegs d l)) = l := by
  have hL : ∀ s ∈ l.map String.data, s ≠ [] ∧ ∀ c ∈ s, isDelim c = false := by
    intro s hs
    obtain ⟨seg, hseg, rfl⟩ := List.mem_map.mp hs
    exact h seg hseg
  show ((splitSegsAux (joinSegs d l).data []).filter (fun seg => seg ≠ [])).map
      (fun seg => String.mk seg) = l
  rw [joinSegs, mk_data]
  show ((splitSegsAux (joinChars d (l.map String.data)) []).filter
      (fun seg => seg ≠ [])).map (fun seg => String.mk seg) = l
  rw [split_join d hd (l.map String.data) hL, List.map_map]
  exact List.map_id l

/-- C6: the space-delimited string form, the slash-delimited string form and
the explicit segment-sequence form of a path normalize to the identical
ordered segment sequence (case preserved), so command produces the same
request — in particular the same method string, xCommand/ followed by the
segments joined with slashes — for all three forms. -/
theorem command_path_forms_agree (l : List String)
    (h : ∀ seg ∈ l, seg.data ≠ [] ∧ ∀ c ∈ seg.data, isDelim c = false) :
    normalizePath (Path.str (joinSegs ' ' l)) = l ∧
    normalizePath (Path.str (joinSegs '/' l)) = l ∧
    normalizePath (Path.segs l) = l ∧
    ∀ st params body,
      command st (Path.str (joinSegs ' ' l)) params body
        = command st (Path.segs l) params body ∧
      command st (Path.str (joinSegs '/' l)) params body
        = command st (Path.segs l) params body ∧
      (command st (Path.segs l) params body).1.method
        = "xCommand/" ++ String.intercalate "/" l := by
  have hsp := normalizePath_joinSegs ' ' (by decide) l h
  have hsl := normalizePath_joinSegs '/' (by decide) l h
  refine ⟨hsp, hsl, rfl, ?_⟩
  intro st params body
  refine ⟨?_, ?_, rfl⟩
  · show command st (Path.str (joinSegs ' ' l)) params body = command st (Path.segs l) params body
    unfold command
    rw [hsp]
    exact rfl
  · show command st (Path.str (joinSegs '/' l)) params body = command st (Path.segs l) params body
    unfold command
    rw [hsl]
    exact rfl


/-- Witness for C6: the Presentation Start path in all three notations yields
the method xCommand/Presentation/Start. -/
theorem command_path_forms_agree_witness :
    normalizePath (Path.str (joinSegs ' ' ["Presentation", "Start"]))
      = ["Presentation", "Start"] ∧
    command XAPIState.initial (Path.str (joinSegs ' ' ["Presentation", "Start"])) none none
      = command XAPIState.initial (Path.segs ["Presentation", "Start"]) none none ∧
    (command XAPIState.initial (Path.segs ["Presentation", "Start"]) none none).1.method
      = "xCommand/" ++ String.intercalate "/" ["Presentation", "Start"] := by
  have h := command_path_forms_agree ["Presentation", "Start"] (by decide)
  exact ⟨h.1, (h.2.2.2 XAPIState.initial none none).1,
    (h.2.2.2 XAPIState.initial none none).2.2⟩

/-! Connection teardown. XAPI.close (index.ts 183-186) delegates to
backend.close(); the Backend implementation is not under the sources (only its
tests are), so the teardown behaviour is modelled from the spec. -/

/-- Modelled from the spec: the connection-closed failure with which pending
requests are rejected on teardown (spec section 5: "all pending requests are
then rejected with a connection-closed failure rather than left to hang"). -/
def connectionClosedError : XapiError :=
  { code := -1, message := "Connection closed" }

/-- An XAPI instance together with the open/closed state of its backend
connection (spec section 3, Connection Lifecycle State: closed is terminal). -/
structure SysState where
  xapi : XAPIState
  closed : Bool

/-- Modelled from the spec: the effect of XAPI.close (index.ts 183-186, which
calls backend.close()). Spec section 5: every pending request is rejected with
a connection-closed failure and removed, and the connection becomes closed. -/
def closeXapi (s : SysState) : SysState × List HandleEffect :=
  ({ xapi := { s.xapi with requests := [] }, closed := true },
   s.xapi.requests.map (fun id => HandleEffect.rejected id (some connectionClosedError)))

/-- Modelled from the spec: delivery of an inbound message. While the
connection is open the message goes through XAPI.handleResponse; after close
no further data events fire (spec sections 4.1 and 5), so nothing is
dispatched or resolved. -/
def deliver (s : SysState) (r : XapiResponse) : SysState × List HandleEffect :=
  if s.closed then (s, [])
  else ({ s with xapi := (handleResponse s.xapi r).1 }, [(handleResponse s.xapi r).2])

/-- C7: after close() is called, every request that was pending has its reject
continuation invoked with the connection-closed failure, the pending table is
left empty (none is left unresolved and none is left hanging), and no message
arriving after close produces any effect — in particular no feedback listener
is ever invoked for an event arriving after close. -/
theorem close_rejects_pending (s : SysState) :
    (∀ id ∈ s.xapi.requests,
       HandleEffect.rejected id (some connectionClosedError) ∈ (closeXapi s).2) ∧
    (closeXapi s).1.xapi.requests = [] ∧
    (closeXapi s).1.closed = true ∧
    (∀ r, (deliver (closeXapi s).1 r).2 = [] ∧
          (deliver (closeXapi s).1 r).1 = (closeXapi s).1) := by
  refine ⟨?_, rfl, rfl, ?_⟩
  · intro id hid
    exact List.mem_map.mpr ⟨id, hid, rfl⟩
  · intro r
    constructor <;> simp [deliver, closeXapi]

/-- Witness for C7: with requests "1" and "2" pending, close rejects both with
the connection-closed failure and a subsequent feedback event produces no
effect. -/
theorem close_rejects_pending_witness :
    HandleEffect.rejected "1" (some connectionClosedError)
      ∈ (closeXapi ⟨⟨3, ["1", "2"]⟩, false⟩).2 ∧
    HandleEffect.rejected "2" (some connectionClosedError)
      ∈ (closeXapi ⟨⟨3, ["1", "2"]⟩, false⟩).2 ∧
    (closeXapi ⟨⟨3, ["1", "2"]⟩, false⟩).1.xapi.requests = [] ∧
    (deliver (closeXapi ⟨⟨3, ["1", "2"]⟩, false⟩).1
       { method := some "xFeedback/Event", params := some (Value.str "evt") }).2 = [] := by
  have h := close_rejects_pending ⟨⟨3, ["1", "2"]⟩, false⟩
  exact ⟨h.1 "1" (by decide), h.1 "2" (by decide), h.2.1,
    (h.2.2.2 { method := some "xFeedback/Event", params := some (Value.str "evt") }).1⟩

/-! The Backend request dispatch boundary. The Backend class is not under the
sources (only test/backend.spec.ts is), so it is modelled from the spec. -/

/-- Outcome of a Backend request execution as observed by the caller of
execute: a resolution value or a rejection message. -/
inductive Outcome where
  | ok (v : Value)
  | rejectedWith (message : String)

/-- Modelled from the spec: Backend.defaultHandler (spec sections 4.1 and 7):
"returns a rejected outcome carrying Invalid request method; never throws
synchronously" — a total function into Outcome, so no synchronous throw is
possible. -/
def defaultHandler (_req : Request) : Outcome :=
  Outcome.rejectedWith "Invalid request method"

/-- Modelled from the spec: the key under which a handler for a method is
looked up (spec section 4.1, format Category with optional /Action): commands
are dispatched on the xCommand category, the other methods on their full
name, matching the Backend tests. -/
def handlerKey (method : String) : String :=
  if method.startsWith "xCommand/" then "xCommand" else method

/-- Modelled from the spec: a Backend with its registry of locally registered
handlers, an explicit mapping from method-name key to handler function
(spec sections 4.1 and 9). -/
structure Backend where
  handlers : List (String × (Request → Outcome))

/-- Looks up the locally registered handler for a method name. -/
def lookupHandler (b : Backend) (method : String) : Option (Request → Outcome) :=
  (b.handlers.find? (fun kv => kv.1 = handlerKey method)).map (fun kv => kv.2)

/-- Modelled from the spec: Backend.execute routing (spec section 4.1): a
registered handler for the request's method is invoked, and with no matching
handler the request falls back to defaultHandler. -/
def backendExecuteRequest (b : Backend) (req : Request) : Outcome :=
  match lookupHandler b req.method with
  | some h => h req
  | none => defaultHandler req

/-- C8: executing a request on a backend with no handler registered for the
request's method rejects with exactly the fixed message Invalid request
method, produced by defaultHandler, which is total and therefore never throws
synchronously. -/
theorem unregistered_method_rejects (b : Backend) (req : Request)
    (h : lookupHandler b req.method = none) :
    backendExecuteRequest b req = Outcome.rejectedWith "Invalid request method" ∧
    defaultHandler req = Outcome.rejectedWith "Invalid request method" := by
  constructor
  · rw [backendExecuteRequest, h]
    rfl
  · rfl

/-- Witness for C8: the Dial command of the Backend test suite, executed on a
backend with no registered handlers, rejects with Invalid request method. -/
theorem unregistered_method_rejects_witness :
    backendExecuteRequest ⟨[]⟩
        (createRequest "1" "xCommand/Dial" (some (Value.obj [("Number", Value.str "user@example.com")])))
      = Outcome.rejectedWith "Invalid request method" :=
  (unregistered_method_rejects ⟨[]⟩
    (createRequest "1" "xCommand/Dial" (some (Value.obj [("Number", Value.str "user@example.com")])))
    rfl).1

end Jsxapi
